import Mathlib

/-!
Verification of the autodp conversion/composition core against its
natural-language specification.

Embedding conventions:
* Python floats are modelled by real numbers (`ℝ`); `np.inf` is modelled by
  working in `EReal` where an infinite value can flow through.
* Python exceptions are modelled by `Except PyErr`: an evaluator that can
  raise returns `Except PyErr α`.  A Python `assert` that fails is
  `.error .assertionError`; float division by zero is
  `.error .zeroDivisionError` (CPython raises `ZeroDivisionError` for
  `x / 0.0`); `np.log(None)` is `.error .typeError`.
  A bare `print(...)` has no effect on the returned value and is dropped.
* `scipy.optimize.minimize_scalar` is abstracted as an oracle of type
  `Optimizer`: it receives the objective and the bounds interval and
  returns a success flag together with the candidate minimiser `x`
  (`results.x`); `results.fun` is recovered by evaluating the objective at
  that point.  The bracket/tolerance configuration is absorbed into the
  oracle.  All theorems quantify over the oracle.
* Functions of the repository that live outside `src/`
  (`autodp/autodp_core.py`, `autodp/utils.py`, `autodp/cdf_bank.py`,
  `autodp/rdp_acct.py`) are modelled from the spec; each such definition
  says so in its doc comment.
-/

/-- The Python exceptions that the embedded code can raise. -/
inductive PyErr where
  | assertionError
  | zeroDivisionError
  | valueError
  | typeError
  deriving DecidableEq, Repr

/-- Outcome of a `scipy.optimize.minimize_scalar` call: the convergence flag
`results.success` and the candidate minimiser `results.x`. -/
structure OptResult where
  success : Bool
  x : ℝ

/-- An abstract bounded scalar minimiser: objective and bounds in, result out.
The objective may raise (its evaluations inside scipy are abstracted away). -/
def Optimizer : Type := (ℝ → Except PyErr EReal) → (EReal × EReal) → OptResult

/-- Python float division: `a / b` raises `ZeroDivisionError` when `b == 0`. -/
noncomputable def pydiv (a b : ℝ) : Except PyErr ℝ :=
  if b = 0 then .error .zeroDivisionError else .ok (a / b)

/-- Absolute value on `EReal` (the magnitudes fed to `minimize_scalar`). -/
noncomputable def eabs (e : EReal) : EReal := max e (-e)

/-- `np.exp` extended to infinite inputs: `exp (-inf) = 0`, `exp inf = inf`. -/
noncomputable def pyexp (e : EReal) : EReal :=
  if e = ⊤ then ⊤ else if e = ⊥ then 0 else ((Real.exp e.toReal : ℝ) : EReal)

/-- `np.log` extended to infinite inputs: `log inf = inf`; nonpositive inputs
(`log 0 = -inf`, `log` of a negative is NaN) are sent to `⊥` as junk. -/
noncomputable def pylog (e : EReal) : EReal :=
  if e = ⊤ then ⊤ else if e ≤ 0 then ⊥ else ((Real.log e.toReal : ℝ) : EReal)

/-- Modelled from the spec: `autodp.utils.stable_log_diff_exp` is not under
src/.  Spec section 4.1: it returns a pair of a sign in \{+1, -1\} and the
magnitude `log |e^a - e^b|` (the sign is unspecified when `a = b`). -/
noncomputable def stable_log_diff_exp (a b : ℝ) : ℝ × ℝ :=
  (if b ≤ a then 1 else -1, Real.log |Real.exp a - Real.exp b|)

/-- Modelled from the spec: `autodp.utils.stable_log_sinh` is not under src/.
Spec section 4.1: it computes `log (sinh x)` through an overflow-safe
identity; mathematically it is `Real.log (Real.sinh x)`. -/
noncomputable def stable_log_sinh (x : ℝ) : ℝ := Real.log (Real.sinh x)

/-- Modelled from the spec: `autodp.utils.stable_logsumexp_two` is not under
src/.  Spec section 4.1: it computes `log (e^a + e^b)` stably. -/
noncomputable def stable_logsumexp_two (a b : ℝ) : ℝ :=
  Real.log (Real.exp a + Real.exp b)

/-- Evaluate a list of possibly-raising terms left to right, propagating the
first exception (the semantics of a Python list comprehension). -/
def exList : List (Except PyErr EReal) → Except PyErr (List EReal)
  | [] => .ok []
  | e :: t => e.bind fun v => (exList t).map (v :: ·)

/-- Python `sum(...)` over a list comprehension whose elements may raise:
all elements are evaluated first, then folded with `+` starting from `0`. -/
noncomputable def pysum (l : List (Except PyErr EReal)) : Except PyErr EReal :=
  (exList l).map (List.foldl (· + ·) 0)

/-- Membership test for a key of a Python dict modelled as an ordered
association list (`key in d`). -/
def containsKey (d : List (String × ℝ)) (k : String) : Bool :=
  d.any (fun kv => kv.1 = k)

/-- One-key step of Python `dict.update`: replace the value in place if the
key is present, otherwise append the pair (dicts keep insertion order). -/
def dictInsert (d : List (String × ℝ)) (k : String) (v : ℝ) :
    List (String × ℝ) :=
  if containsKey d k then d.map (fun kv => if kv.1 = k then (k, v) else kv)
  else d ++ [(k, v)]

/-- Python `d.update(u)` on insertion-ordered dicts. -/
def dictUpdate (d u : List (String × ℝ)) : List (String × ℝ) :=
  u.foldl (fun acc kv => dictInsert acc kv.1 kv.2) d

/- ----------------------------------------------------------------------
converter.py
---------------------------------------------------------------------- -/

/-- The closure `rdp` returned by `converter.puredp_to_rdp` (src lines
30-43), as a function of the Renyi order `alpha` (which may be `np.inf`,
hence `EReal`).  Branches in source order: the `assert alpha >= 0`, then
`alpha == 1` (cosh/sinh limit, a float division that raises when
`sinh eps == 0`), then `np.isinf(alpha)`, then `alpha > 1` (stable-log
identity), else the small-order minimum (again dividing by `sinh eps`). -/
noncomputable def puredp_rdp (eps : ℝ) (alpha : EReal) : Except PyErr EReal :=
  if alpha < 0 then .error .assertionError
  else if alpha = 1 then
    (pydiv (eps * (Real.cosh eps - 1)) (Real.sinh eps)).map (fun t => (t : EReal))
  else if alpha = ⊤ then .ok (eps : EReal)
  else if 1 < alpha then
    .ok (((((stable_log_diff_exp (stable_log_sinh (alpha.toReal * eps))
        (stable_log_sinh ((alpha.toReal - 1) * eps))).2
      - stable_log_sinh eps) / (alpha.toReal - 1) : ℝ)) : EReal)
  else
    (pydiv (eps * (Real.cosh eps - 1)) (Real.sinh eps)).map
      (fun t => ((min (alpha.toReal * eps * eps / 2) t : ℝ) : EReal))

/-- `converter.puredp_to_rdp` (src lines 26-45): checks `assert eps >= 0`
and returns the RDP evaluator `puredp_rdp eps`. -/
noncomputable def puredp_to_rdp (eps : ℝ) :
    Except PyErr (EReal → Except PyErr EReal) :=
  if eps < 0 then .error .assertionError else .ok (puredp_rdp eps)

/-- `converter.puredp_to_approxdp` (src lines 54-60): the magnitude of
`stable_log_diff_exp (eps, log delta)`. -/
noncomputable def puredp_to_approxdp (eps : ℝ) : ℝ → ℝ :=
  fun delta => (stable_log_diff_exp eps (Real.log delta)).2

/-- The inner objective `fun` of `converter.rdp_to_approxdp` (src lines
139-147): `np.inf` for orders `x <= 1`; otherwise the BBGHS bound
`max (rdp x + log ((x-1)/x) - (log delta + log x)/(x-1)) 0` or the naive
bound `log (1/delta)/(x-1) + rdp x`. -/
noncomputable def rdp_approxdp_obj (rdp : EReal → Except PyErr EReal)
    (bbghs : Bool) (delta : ℝ) : ℝ → Except PyErr EReal :=
  fun x =>
    if x ≤ 1 then .ok ⊤
    else (rdp x).map (fun rho =>
      if bbghs then
        max (rho + ((Real.log ((x - 1) / x) : ℝ) : EReal)
          - (((Real.log delta + Real.log x) / (x - 1) : ℝ) : EReal)) 0
      else ((Real.log (1 / delta) / (x - 1) : ℝ) : EReal) + rho)

/-- `converter.rdp_to_approxdp` (src lines 119-157).  The out-of-range
check on `delta` only executes a `print` and falls through; `delta == 0`
returns `rdp (np.inf)`; otherwise the objective is minimised over the
order (`minimize_scalar` with bounds `[1, alpha_max]`) and `results.fun`
is returned on success, `np.inf` on optimizer failure. -/
noncomputable def rdp_to_approxdp (rdp : EReal → Except PyErr EReal)
    (alpha_max : EReal) (bbghs : Bool) (opt : Optimizer) :
    ℝ → Except PyErr EReal :=
  fun delta =>
    -- `if delta < 0 or delta > 1: print(...)` : no effect on the result
    if delta = 0 then rdp ⊤
    else
      let f := rdp_approxdp_obj rdp bbghs delta
      let r := opt f (1, alpha_max)
      if r.success then f r.x else .ok ⊤

/-- The `alpha == 1` inner equation `fun` of `converter.single_rdp_to_fdp`
(src lines 173-190), KL-divergence form, including its
`assert 0 <= y <= 1 - x`. -/
noncomputable def single_fdp_fun_KL (rho x : ℝ) (y : ℝ) :
    Except PyErr EReal :=
  if ¬ (0 ≤ y ∧ y ≤ 1 - x) then .error .assertionError
  else if y = 0 then (if x = 1 then .ok 0 else .ok ⊤)
  else if y = 1 then (if x = 0 then .ok 0 else .ok ⊤)
  else .ok (((max
    (x * (Real.log x - Real.log (1 - y))
      + (1 - x) * (Real.log (1 - x) - Real.log y) - rho)
    (y * (Real.log y - Real.log (1 - x))
      + (1 - y) * (Real.log (1 - y) - Real.log x) - rho) : ℝ)) : EReal)

/-- The general-order inner equation `fun` of `converter.single_rdp_to_fdp`
(src lines 196-218): two stable-logsumexp residuals, combined with `max`
for `alpha > 1` and `min` for `alpha < 1`. -/
noncomputable def single_fdp_fun_gen (alpha rho x : ℝ) (y : ℝ) :
    Except PyErr EReal :=
  if y = 0 then (if x = 1 then .ok 0 else .ok ⊤)
  else if y = 1 then (if x = 0 then .ok 0 else .ok ⊤)
  else
    let diff1 := stable_logsumexp_two
      (alpha * Real.log x + (1 - alpha) * Real.log (1 - y))
      (alpha * Real.log (1 - x) + (1 - alpha) * Real.log y) - rho * (alpha - 1)
    let diff2 := stable_logsumexp_two
      (alpha * Real.log y + (1 - alpha) * Real.log (1 - x))
      (alpha * Real.log (1 - y) + (1 - alpha) * Real.log x) - rho * (alpha - 1)
    .ok (((if 1 < alpha then max diff1 diff2 else min diff1 diff2) : ℝ) : EReal)

/-- The closure `fdp` returned by `converter.single_rdp_to_fdp` (src lines
163-232): `assert 0 <= x <= 1`, boundary values at `x ∈ \{0, 1\}`, then a
bounded search for the root of `abs (fun y)` over `y ∈ [0, 1-x]`;
`results.x` on success, `0.0` on optimizer failure. -/
noncomputable def single_fdp (alpha rho : ℝ) (opt : Optimizer) (x : ℝ) :
    Except PyErr ℝ :=
  if ¬ (0 ≤ x ∧ x ≤ 1) then .error .assertionError
  else if x = 0 then .ok 1
  else if x = 1 then .ok 0
  else
    let fn := if alpha = 1 then single_fdp_fun_KL rho x
      else single_fdp_fun_gen alpha rho x
    let normal_equation : ℝ → Except PyErr EReal :=
      fun y => (fn y).map eabs
    let r := opt normal_equation (0, ((1 - x : ℝ) : EReal))
    if r.success then .ok r.x else .ok 0

/-- `converter.single_rdp_to_fdp` (src lines 160-232): checks
`assert alpha >= 0.5` and returns the trade-off evaluator `single_fdp`. -/
noncomputable def single_rdp_to_fdp (alpha rho : ℝ) (opt : Optimizer) :
    Except PyErr (ℝ → Except PyErr ℝ) :=
  if alpha < 0.5 then .error .assertionError
  else .ok (single_fdp alpha rho opt)

/-- `converter.numerical_inverse` (src lines 1065-1089): queries outside the
codomain bounds return `None` (`Option.none`), otherwise `|f x - y|` is
minimised and `results.x` returned on success, `None` on failure. -/
noncomputable def numerical_inverse (f : ℝ → ℝ) (bounds : ℝ × ℝ)
    (opt : Optimizer) : ℝ → Option ℝ :=
  fun y =>
    if bounds.2 < y ∨ y < bounds.1 then none
    else
      let normal_equation : ℝ → Except PyErr EReal :=
        fun x => .ok ((|f x - y| : ℝ) : EReal)
      let r := opt normal_equation ((bounds.1 : EReal), (bounds.2 : EReal))
      if r.success then some r.x else none

/-- `converter.cdf_to_approxdp` (src lines 800-826), quadrature branch:
binary-searches `e^eps` with `trade_off x = cdf_p (log x) + x * cdf_q (-log x)`
via `numerical_inverse` on `[0,1]`; `np.log(None)` after an inversion
failure is a Python `TypeError`. -/
noncomputable def cdf_to_approxdp (cdf_p cdf_q : ℝ → ℝ) (opt : Optimizer) :
    ℝ → Except PyErr EReal :=
  let trade_off : ℝ → ℝ := fun x => cdf_p (Real.log x) + x * cdf_q (-(Real.log x))
  let exp_eps := numerical_inverse trade_off (0, 1) opt
  fun delta =>
    match exp_eps (1 - delta) with
    | some t => .ok ((Real.log t : ℝ) : EReal)
    | none => .error .typeError

/- ----------------------------------------------------------------------
autodp_core.py (not under src/): Mechanism and propagate_updates,
modelled from the spec (sections 3, 4.4 and the design note of section 9
suggesting explicit per-representation presence flags).
---------------------------------------------------------------------- -/

/-- Modelled from the spec: `autodp.autodp_core.Mechanism` is not under
src/.  Spec section 3: a mechanism aggregates its privacy-curve
representations plus `name`, `params`, `delta0`, the `exactPhi` flag, an
upper/lower bound flag for inexact phi-functions, and the
neighboring-relation flag `replace_one`.  `has_approxDP` is the presence
flag of a directly-supplied approx-DP curve (spec section 9 models
optional representations with explicit presence flags; spec section 3:
a directly-supplied representation is never overwritten by a derived
one). -/
structure Mechanism where
  name : String
  params : List (String × ℝ)
  eps_pureDP : EReal
  delta0 : ℝ
  replace_one : Bool
  exactPhi : Bool
  upperPhi : Bool
  has_approxDP : Bool
  RenyiDP : EReal → Except PyErr EReal
  approxDP : ℝ → Except PyErr EReal
  phi_p_lower : ℝ → ℂ
  phi_p_upper : ℝ → ℂ
  phi_q_lower : ℝ → ℂ
  phi_q_upper : ℝ → ℂ
  cdf : (ℝ → ℝ) × (ℝ → ℝ)

/-- Modelled from the spec: the fresh `Mechanism()` produced by the
constructor before any representation is supplied.  Unavailable queries
report infeasibility (`np.inf`, spec section 7) rather than crash. -/
noncomputable def Mechanism.mk0 : Mechanism where
  name := ""
  params := []
  eps_pureDP := ⊤
  delta0 := 0
  replace_one := false
  exactPhi := false
  upperPhi := false
  has_approxDP := false
  RenyiDP := fun _ => .ok ⊤
  approxDP := fun _ => .ok ⊤
  phi_p_lower := fun _ => 0
  phi_p_upper := fun _ => 0
  phi_q_lower := fun _ => 0
  phi_q_upper := fun _ => 0
  cdf := (fun _ => 0, fun _ => 0)

/-- The route used for the RDP-to-approxDP derivation when
`fDP_based_conversion` is set (spec section 4.4); the fDP-based chain is
abstracted as an oracle turning an RDP curve into an approx-DP evaluator. -/
def FdpRoute : Type := (EReal → Except PyErr EReal) → ℝ → Except PyErr EReal

/-- Modelled from the spec: `propagate_updates(value, 'RDP', flags)` of
`autodp.autodp_core.Mechanism` (not under src/).  Spec section 4.4: stores
the supplied RDP curve and derives the representations not already
present via the converter route selected by the flags (BBGHS vs naive,
fDP-based vs direct); a directly-supplied approx-DP curve is never
overwritten by the derived one. -/
noncomputable def propagate_RDP (bbghs fdpBased : Bool) (fdpRoute : FdpRoute)
    (opt : Optimizer) (m : Mechanism) (rdp : EReal → Except PyErr EReal) :
    Mechanism :=
  { m with
    RenyiDP := rdp
    approxDP :=
      if m.has_approxDP then m.approxDP
      else if fdpBased then fdpRoute rdp
      else rdp_to_approxdp rdp ⊤ bbghs opt }

/-- Modelled from the spec: `propagate_updates(eps, 'pureDP')` of
`autodp.autodp_core.Mechanism` (not under src/).  Spec sections 3, 4.3,
4.4: stores the scalar pure-DP epsilon and derives the RDP curve through
`converter.puredp_to_rdp` and the approx-DP curve through
`converter.puredp_to_approxdp`. -/
noncomputable def propagate_pureDP (m : Mechanism) (eps : ℝ) : Mechanism :=
  { m with
    eps_pureDP := (eps : EReal)
    RenyiDP := fun a => (puredp_to_rdp eps).bind (fun f => f a)
    approxDP :=
      if m.has_approxDP then m.approxDP
      else fun delta => .ok ((puredp_to_approxdp eps delta : ℝ) : EReal) }

/-- Modelled from the spec: `propagate_updates((cdf_p, cdf_q),
'cdf_not_sym', take_log=True)` of `autodp.autodp_core.Mechanism` (not
under src/).  Spec sections 4.3, 4.4: stores the CDF pair and derives the
approx-DP curve through `converter.cdf_to_approxdp`; the `take_log`
bookkeeping flag selects the log-coordinate convention and does not
change which representations are filled. -/
noncomputable def propagate_cdf_not_sym (opt : Optimizer) (m : Mechanism)
    (cdfs : (ℝ → ℝ) × (ℝ → ℝ)) (take_log : Bool) : Mechanism :=
  { m with
    cdf := cdfs
    approxDP :=
      if m.has_approxDP then m.approxDP
      else cdf_to_approxdp cdfs.1 cdfs.2 opt }

/- ----------------------------------------------------------------------
mechanism_zoo.py
---------------------------------------------------------------------- -/

/-- `mechanism_zoo.PureDP_Mechanism` (src lines 178-186): sets `name` and
`params` and runs `propagate_updates(eps, 'pureDP')`. -/
noncomputable def PureDP_Mechanism (eps : ℝ) (name : String) : Mechanism :=
  propagate_pureDP
    { Mechanism.mk0 with name := name, params := [("eps", eps)] } eps

/- ----------------------------------------------------------------------
transformer_zoo.py
---------------------------------------------------------------------- -/

/-- `Composition.update_name` (src transformer_zoo lines 63-68). -/
def Composition_update_name (mechanism_list : List Mechanism)
    (coeff_list : List ℕ) : String :=
  "Compose:\x7b" ++ String.intercalate ", "
    (((mechanism_list.zip coeff_list).map
      (fun mc => mc.1.name ++ ": " ++ toString mc.2))) ++ "\x7d"

/-- `Composition.update_params` (src transformer_zoo lines 70-75): one
fresh dict, updated in turn with each mechanism's params re-keyed by its
name. -/
def Composition_update_params (mechanism_list : List Mechanism) :
    List (String × ℝ) :=
  mechanism_list.foldl
    (fun acc m => dictUpdate acc
      (m.params.map (fun kv => (m.name ++ ":" ++ kv.1, kv.2)))) []

/-- The composed RDP curve `newrdp` of `Composition.compose` (src
transformer_zoo lines 38-39): `sum([c * mech.RenyiDP x for (mech, c) in
zip(mechanism_list, coeff_list)])`. -/
noncomputable def Composition_newrdp (mechanism_list : List Mechanism)
    (coeff_list : List ℕ) : EReal → Except PyErr EReal :=
  fun x => pysum ((mechanism_list.zip coeff_list).map
    (fun mc => (mc.1.RenyiDP x).map (fun rho => ((mc.2 : ℝ) : EReal) * rho)))

/-- `Composition.compose` (src transformer_zoo lines 27-61): propagates
`newrdp` as the RDP of a fresh mechanism, then sets the aggregate
pure-DP epsilon `sum(c * eps_pureDP)`, the aggregate
`delta0 = max(delta0)` (Python `max` of a nonempty list; the empty list
would raise and is modelled as junk `0`), the `RDP_compose_only` branch
(a `pass` in source) and the name/params bookkeeping. -/
noncomputable def Composition_compose (opt : Optimizer) (fdpRoute : FdpRoute)
    (mechanism_list : List Mechanism) (coeff_list : List ℕ)
    (RDP_compose_only BBGHS_conversion fDP_based_conversion : Bool) :
    Mechanism :=
  let newmech := propagate_RDP BBGHS_conversion fDP_based_conversion fdpRoute
    opt Mechanism.mk0 (Composition_newrdp mechanism_list coeff_list)
  { newmech with
    eps_pureDP :=
      ((mechanism_list.zip coeff_list).map
        (fun mc => ((mc.2 : ℝ) : EReal) * mc.1.eps_pureDP)).foldl (· + ·) 0
    delta0 :=
      match mechanism_list with
      | [] => 0
      | h :: t => t.foldl (fun acc m => max acc m.delta0) h.delta0
    name := Composition_update_name mechanism_list coeff_list
    params := Composition_update_params mechanism_list }

/-- The composed phi-function `new_phi_p_lower` of `ComposeAFA.compose`
(src transformer_zoo lines 105-106). -/
def AFA_phi_p_lower (mechanism_list : List Mechanism)
    (coeff_list : List ℕ) : ℝ → ℂ :=
  fun x => ((mechanism_list.zip coeff_list).map
    (fun mc => (mc.2 : ℂ) * mc.1.phi_p_lower x)).foldl (· + ·) 0

/-- The composed phi-function `new_phi_p_upper` of `ComposeAFA.compose`
(src transformer_zoo lines 108-109). -/
def AFA_phi_p_upper (mechanism_list : List Mechanism)
    (coeff_list : List ℕ) : ℝ → ℂ :=
  fun x => ((mechanism_list.zip coeff_list).map
    (fun mc => (mc.2 : ℂ) * mc.1.phi_p_upper x)).foldl (· + ·) 0

/-- The composed phi-function `new_phi_q_lower` of `ComposeAFA.compose`
(src transformer_zoo lines 111-112). -/
def AFA_phi_q_lower (mechanism_list : List Mechanism)
    (coeff_list : List ℕ) : ℝ → ℂ :=
  fun x => ((mechanism_list.zip coeff_list).map
    (fun mc => (mc.2 : ℂ) * mc.1.phi_q_lower x)).foldl (· + ·) 0

/-- The composed phi-function `new_phi_q_upper` of `ComposeAFA.compose`
(src transformer_zoo lines 114-115). -/
def AFA_phi_q_upper (mechanism_list : List Mechanism)
    (coeff_list : List ℕ) : ℝ → ℂ :=
  fun x => ((mechanism_list.zip coeff_list).map
    (fun mc => (mc.2 : ℂ) * mc.1.phi_q_upper x)).foldl (· + ·) 0

/-- The flag loop of `ComposeAFA.compose` (src transformer_zoo lines
119-128): the running state is `(upper_bound, lower_bound,
newmech.exactPhi)`, initially `(False, False, True)`. -/
def afaFlagStep (st : Bool × Bool × Bool) (m : Mechanism) :
    Bool × Bool × Bool :=
  if m.exactPhi = false then
    if m.upperPhi = true then (true, st.2.1, false) else (st.1, true, false)
  else st

/-- The final flag state of the `ComposeAFA.compose` loop over the whole
mechanism list. -/
def afaFlags (mechanism_list : List Mechanism) : Bool × Bool × Bool :=
  mechanism_list.foldl afaFlagStep (false, false, true)

/-- `ComposeAFA.compose` (src transformer_zoo lines 92-158).  The external
collaborator `cdf_bank.cdf_approx` (not under src/) is passed in as
`cdfapprox` (spec section 6: a plain evaluator supplied to the core).
After the flag loop, `assert not (lower_bound and upper_bound)`, then the
exact / lower-bound / upper-bound branch chooses which composed
phi-functions are stored and which of them both CDFs are built from; in
the upper-bound branch the source builds `cdf_q` from `phi_p_upper`
(line 149).  The CDF pair is then propagated as `'cdf_not_sym'` and the
name/params bookkeeping runs as in `Composition`. -/
noncomputable def ComposeAFA_compose (cdfapprox : (ℝ → ℂ) → ℝ → ℝ)
    (opt : Optimizer) (mechanism_list : List Mechanism)
    (coeff_list : List ℕ) : Except PyErr Mechanism :=
  let flags := afaFlags mechanism_list
  if flags.2.1 = true ∧ flags.1 = true then .error .assertionError
  else
    let nm1 :=
      if flags.2.2 then
        { Mechanism.mk0 with
          exactPhi := true
          phi_p_lower := fun x => AFA_phi_p_lower mechanism_list coeff_list x
          phi_p_upper := fun x => AFA_phi_p_upper mechanism_list coeff_list x
          phi_q_lower := fun x => AFA_phi_q_lower mechanism_list coeff_list x
          phi_q_upper := fun x => AFA_phi_q_upper mechanism_list coeff_list x }
      else if flags.2.1 then
        { Mechanism.mk0 with
          exactPhi := false
          phi_p_lower := fun x => AFA_phi_p_lower mechanism_list coeff_list x
          phi_q_lower := fun x => AFA_phi_q_lower mechanism_list coeff_list x }
      else
        { Mechanism.mk0 with
          exactPhi := false
          phi_p_upper := fun x => AFA_phi_p_upper mechanism_list coeff_list x
          phi_q_upper := fun x => AFA_phi_q_upper mechanism_list coeff_list x }
    let cdf_p : ℝ → ℝ :=
      if flags.2.2 then fun x => cdfapprox nm1.phi_p_upper x
      else if flags.2.1 then fun x => cdfapprox nm1.phi_p_lower x
      else fun x => cdfapprox nm1.phi_p_upper x
    let cdf_q : ℝ → ℝ :=
      if flags.2.2 then fun x => cdfapprox nm1.phi_q_upper x
      else if flags.2.1 then fun x => cdfapprox nm1.phi_q_lower x
      else fun x => cdfapprox nm1.phi_p_upper x
    let nm2 := propagate_cdf_not_sym opt
      { nm1 with cdf := (cdf_p, cdf_q) } (cdf_p, cdf_q) true
    .ok { nm2 with
      name := Composition_update_name mechanism_list coeff_list
      params := Composition_update_params mechanism_list }

/-- The while loop of `AmplificationBySampling.amplify` (src
transformer_zoo lines 286-294) that searches a `newname` whose key
`newname + '_' + str(prob)` is not yet in the input mechanism's params;
Python `str(prob)` is supplied as `probStr`.  The loop terminates because
the dict is finite and the candidate names are pairwise distinct, so a
fuel of `params.length + 1` suffices. -/
def freshName (base probStr : String) (params : List (String × ℝ)) : String :=
  go (params.length + 1) 0
where
  go : ℕ → ℕ → String
    | 0, num => if num = 0 then base else base ++ toString num
    | fuel + 1, num =>
      let newname := if num = 0 then base else base ++ toString num
      if containsKey params (newname ++ "_" ++ probStr) then go fuel (num + 1)
      else newname

/-- The RDP amplification accountant of `amplify` (src transformer_zoo
lines 264-278) is `autodp.rdp_acct.anaRDPacct` (not under src/); spec
section 4.6 describes it as an interpolated oracle over a family of
amplification bounds, so it is abstracted as a function of the base RDP
curve, the sampling probability, the improved-bound flag and the
Poisson-sampling flag. -/
def AcctRdp : Type :=
  (EReal → Except PyErr EReal) → ℝ → Bool → Bool → (EReal → Except PyErr EReal)

/-- `AmplificationBySampling.amplify` (src transformer_zoo lines 225-301).
Returns the pair (newmech, state of the input mechanism after the call):
`newmech.params = mechanism.params` aliases the input's dict and the
subsequent `newmech.params.update(new_params)` mutates it through that
alias, so both mechanisms end up with the updated dict.  The asserts tie
Poisson sampling to add/remove neighbouring relations and subsampling to
replace-one; `prob == 0` installs the constant-zero approx-DP curve,
otherwise the closed form `log (1 + prob * (exp (approxDP (delta/prob)) - 1))`;
the amplified RDP curve from the accountant is then propagated with the
default flags. -/
noncomputable def AmplificationBySampling_amplify (PoissonSampling : Bool)
    (acctRdp : AcctRdp) (fdpRoute : FdpRoute) (opt : Optimizer)
    (mechanism : Mechanism) (prob : ℝ) (probStr : String)
    (improved_bound_flag : Bool) : Except PyErr (Mechanism × Mechanism) :=
  if PoissonSampling = true ∧ mechanism.replace_one = true then
    .error .assertionError
  else if PoissonSampling = false ∧ mechanism.replace_one = false then
    .error .assertionError
  else
    let new_approxDP : ℝ → Except PyErr EReal :=
      if prob = 0 then fun _ => .ok 0
      else fun delta => (mechanism.approxDP (delta / prob)).map
        (fun e => pylog (1 + (prob : EReal) * (pyexp e - 1)))
    let nm1 := { Mechanism.mk0 with
      replace_one := !PoissonSampling
      approxDP := new_approxDP
      has_approxDP := true }
    let new_rdp := acctRdp mechanism.RenyiDP prob improved_bound_flag
      PoissonSampling
    let nm2 := propagate_RDP true false fdpRoute opt nm1 new_rdp
    let selfName := if PoissonSampling then "PoissonSample" else "Subsample"
    let newname := freshName selfName probStr mechanism.params
    let shared := dictUpdate mechanism.params [(newname, prob)]
    .ok ({ nm2 with
            name := newname ++ ":" ++ mechanism.name
            params := shared },
         { mechanism with params := shared })

/- ----------------------------------------------------------------------
Concrete instances used to evaluate the embedding at specific inputs.
---------------------------------------------------------------------- -/

/-- An optimizer oracle that reports convergence at the point `x = 2`. -/
def opt_success : Optimizer := fun _ _ => ⟨true, 2⟩

/-- An optimizer oracle that reports failure to converge. -/
def opt_fail : Optimizer := fun _ _ => ⟨false, 0⟩

/-- The identically-zero RDP curve. -/
def rdp_zero : EReal → Except PyErr EReal := fun _ => .ok 0

/-- A trivial fDP-based conversion route. -/
def fdpRoute0 : FdpRoute := fun _ _ => .ok 0

/-- A trivial subsampled-RDP accountant. -/
def acct0 : AcctRdp := fun _ _ _ _ => fun _ => .ok 0

/-- A trivial stand-in for `cdf_bank.cdf_approx`. -/
def cdfapprox0 : (ℝ → ℂ) → ℝ → ℝ := fun _ _ => 0

/-- A base mechanism with `params = {'sigma': 5.0}` under the add/remove
neighbouring relation, as fed to `AmplificationBySampling`. -/
noncomputable def mech_g : Mechanism :=
  { Mechanism.mk0 with name := "Gaussian", params := [("sigma", 5)] }

/-- A mechanism whose RDP curve is identically `1`. -/
noncomputable def mech_r1 : Mechanism :=
  { Mechanism.mk0 with RenyiDP := fun _ => .ok 1 }

/-- A mechanism carrying only an upper-bound phi-function. -/
noncomputable def mech_up : Mechanism :=
  { Mechanism.mk0 with name := "U", exactPhi := false, upperPhi := true }

/-- A mechanism carrying only a lower-bound phi-function. -/
noncomputable def mech_low : Mechanism :=
  { Mechanism.mk0 with name := "L", exactPhi := false, upperPhi := false }

/-- A mechanism with an exact phi-function pair. -/
noncomputable def mech_exact : Mechanism :=
  { Mechanism.mk0 with name := "E", exactPhi := true, upperPhi := false }

/- ----------------------------------------------------------------------
Helper lemmas.
---------------------------------------------------------------------- -/

theorem ereal_top_ne_one : (⊤ : EReal) ≠ 1 := by
  rw [← EReal.coe_one]
  exact EReal.top_ne_coe 1

theorem puredp_rdp_top (eps : ℝ) : puredp_rdp eps ⊤ = .ok (eps : EReal) := by
  rw [puredp_rdp, if_neg (by simp), if_neg ereal_top_ne_one, if_pos rfl]

theorem puredp_rdp_one_zero :
    puredp_rdp 0 ((1 : ℝ) : EReal) = .error .zeroDivisionError := by
  rw [puredp_rdp, if_neg (by norm_num), if_pos (by norm_num), pydiv,
    if_pos Real.sinh_zero]
  rfl

theorem puredp_rdp_small_zero (a : ℝ) (h0 : 0 ≤ a) (h1 : a < 1) :
    puredp_rdp 0 ((a : ℝ) : EReal) = .error .zeroDivisionError := by
  rw [puredp_rdp, if_neg (by exact_mod_cast not_lt.2 h0),
    if_neg (by exact_mod_cast ne_of_lt h1), if_neg (EReal.coe_ne_top a),
    if_neg (by exact_mod_cast not_lt.2 (le_of_lt h1)), pydiv,
    if_pos Real.sinh_zero]
  rfl

theorem puredp_rdp_small_pos (eps a : ℝ) (heps : 0 < eps) (h0 : 0 ≤ a)
    (h1 : a < 1) : (puredp_rdp eps ((a : ℝ) : EReal)).isOk = true := by
  rw [puredp_rdp, if_neg (by exact_mod_cast not_lt.2 h0),
    if_neg (by exact_mod_cast ne_of_lt h1), if_neg (EReal.coe_ne_top a),
    if_neg (by exact_mod_cast not_lt.2 (le_of_lt h1)), pydiv,
    if_neg (ne_of_gt (Real.sinh_pos_iff.2 heps))]
  rfl

theorem puredp_rdp_one_pos (eps : ℝ) (heps : 0 < eps) :
    (puredp_rdp eps ((1 : ℝ) : EReal)).isOk = true := by
  rw [puredp_rdp, if_neg (by norm_num), if_pos (by norm_num), pydiv,
    if_neg (ne_of_gt (Real.sinh_pos_iff.2 heps))]
  rfl

/- ----------------------------------------------------------------------
Claims.
---------------------------------------------------------------------- -/

/-- C9: for eps = 0, which passes the precondition `eps >= 0` of
`puredp_to_rdp`, the returned RDP evaluator raises `ZeroDivisionError`
at `alpha = 1` and at every order `0 < alpha < 1` (division by
`math.sinh 0 = 0`) instead of returning the limit value `0`; for every
`eps > 0` the evaluator is well-defined at those orders. -/
theorem claim_C9 :
    (puredp_to_rdp 0 = .ok (puredp_rdp 0)) ∧
    (puredp_rdp 0 ((1 : ℝ) : EReal) = .error .zeroDivisionError) ∧
    (∀ a : ℝ, 0 < a → a < 1 →
      puredp_rdp 0 ((a : ℝ) : EReal) = .error .zeroDivisionError) ∧
    (∀ eps : ℝ, 0 < eps →
      (puredp_rdp eps ((1 : ℝ) : EReal)).isOk = true ∧
      ∀ a : ℝ, 0 < a → a < 1 →
        (puredp_rdp eps ((a : ℝ) : EReal)).isOk = true) := by
  refine ⟨?_, puredp_rdp_one_zero, ?_, ?_⟩
  · rw [puredp_to_rdp, if_neg (by norm_num)]
  · intro a h0 h1
    exact puredp_rdp_small_zero a (le_of_lt h0) h1
  · intro eps heps
    exact ⟨puredp_rdp_one_pos eps heps,
      fun a h0 h1 => puredp_rdp_small_pos eps a heps (le_of_lt h0) h1⟩

/-- Witness for C9 at the concrete orders `alpha = 1/2` (eps = 0 raises)
and `alpha = 1` (eps = 1 is fine). -/
theorem claim_C9_witness :
    puredp_rdp 0 (((1 : ℝ) / 2 : ℝ) : EReal) = .error .zeroDivisionError ∧
    (puredp_rdp 1 ((1 : ℝ) : EReal)).isOk = true :=
  ⟨claim_C9.2.2.1 ((1 : ℝ) / 2) (by norm_num) (by norm_num),
   (claim_C9.2.2.2 1 (by norm_num)).1⟩

/-- C3: for every eps >= 0, `puredp_to_rdp eps` succeeds, and composing the
converters and evaluating at delta = 0 returns exactly eps:
`rdp_to_approxdp (puredp_to_rdp eps) 0 == eps` (the `delta == 0` branch
returns `rdp (np.inf)`, which is the exact pure-DP epsilon). -/
theorem claim_C3 (eps : ℝ) (h : 0 ≤ eps) (alpha_max : EReal) (bbghs : Bool)
    (opt : Optimizer) :
    puredp_to_rdp eps = .ok (puredp_rdp eps) ∧
    rdp_to_approxdp (puredp_rdp eps) alpha_max bbghs opt 0
      = .ok ((eps : ℝ) : EReal) := by
  constructor
  · rw [puredp_to_rdp, if_neg (not_lt.2 h)]
  · rw [rdp_to_approxdp]
    simp only [if_pos rfl]
    exact puredp_rdp_top eps

/-- Witness for C3 at eps = 1. -/
theorem claim_C3_witness :
    puredp_to_rdp 1 = .ok (puredp_rdp 1) ∧
    rdp_to_approxdp (puredp_rdp 1) ⊤ true opt_success 0
      = .ok (((1 : ℝ) : ℝ) : EReal) :=
  claim_C3 1 (by norm_num) ⊤ true opt_success

/-- C4: the evaluator returned by `rdp_to_approxdp` returns `rdp (np.inf)`
at delta = 0, and when the bounded scalar optimization over the order
reports failure it returns `np.inf` (`.ok ⊤`, an infeasible-budget value)
rather than raising an exception. -/
theorem claim_C4 (rdp : EReal → Except PyErr EReal) (alpha_max : EReal)
    (bbghs : Bool) (opt : Optimizer) (delta : ℝ) :
    (rdp_to_approxdp rdp alpha_max bbghs opt 0 = rdp ⊤) ∧
    (delta ≠ 0 →
      (opt (rdp_approxdp_obj rdp bbghs delta) (1, alpha_max)).success = false →
      rdp_to_approxdp rdp alpha_max bbghs opt delta = .ok ⊤) := by
  constructor
  · rw [rdp_to_approxdp]
    rw [if_pos rfl]
  · intro hδ hfail
    rw [rdp_to_approxdp]
    simp only [if_neg hδ, hfail]
    simp

/-- Witness for C4: a failing optimizer at delta = 1/2 yields `+inf`, and
delta = 0 yields the curve at infinity. -/
theorem claim_C4_witness :
    rdp_to_approxdp rdp_zero ⊤ true opt_fail (1 / 2) = .ok ⊤ ∧
    rdp_to_approxdp rdp_zero ⊤ true opt_fail 0 = rdp_zero ⊤ :=
  ⟨(claim_C4 rdp_zero ⊤ true opt_fail (1 / 2)).2 (by norm_num) rfl,
   (claim_C4 rdp_zero ⊤ true opt_fail 0).1⟩

theorem exList_ok (es : List EReal) : exList (es.map Except.ok) = .ok es := by
  induction es with
  | nil => rfl
  | cons e t ih => simp [exList, ih, Except.bind, Except.map]

theorem pysum_ok (es : List EReal) :
    pysum (es.map Except.ok) = .ok (es.foldl (· + ·) 0) := by
  rw [pysum, exList_ok]
  rfl

theorem zip_map_eq {α β γ δ : Type} (f : α → γ) (g : β → γ) (h : ℕ → γ → δ) :
    ∀ (l : List α) (es : List β) (cl : List ℕ), l.map f = es.map g →
      (l.zip cl).map (fun mc => h mc.2 (f mc.1))
        = (es.zip cl).map (fun p => h p.2 (g p.1)) := by
  intro l
  induction l with
  | nil =>
    intro es cl hmap
    have : es = [] := by
      cases es with
      | nil => rfl
      | cons e t => simp at hmap
    subst this
    rfl
  | cons a t ih =>
    intro es cl hmap
    cases es with
    | nil => simp at hmap
    | cons e es' =>
      simp only [List.map_cons, List.cons.injEq] at hmap
      cases cl with
      | nil => rfl
      | cons c cl' =>
        simp only [List.zip_cons_cons, List.map_cons]
        rw [hmap.1, ih es' cl' hmap.2]

theorem comp_newrdp_eval (l : List Mechanism) (cl : List ℕ) (es : List EReal)
    (alpha : EReal)
    (hmap : l.map (fun m => m.RenyiDP alpha) = es.map Except.ok) :
    Composition_newrdp l cl alpha
      = .ok (((es.zip cl).map
          (fun p => ((p.2 : ℝ) : EReal) * p.1)).foldl (· + ·) 0) := by
  rw [Composition_newrdp]
  have step := zip_map_eq (fun m : Mechanism => m.RenyiDP alpha)
    (Except.ok : EReal → Except PyErr EReal)
    (fun c v => v.map (fun rho => ((c : ℝ) : EReal) * rho)) l es cl hmap
  simp only at step
  rw [step]
  have hlist : (es.zip cl).map
      (fun p => (Except.ok p.1 : Except PyErr EReal).map
        (fun rho => ((p.2 : ℝ) : EReal) * rho))
      = ((es.zip cl).map (fun p => ((p.2 : ℝ) : EReal) * p.1)).map Except.ok := by
    rw [List.map_map]
    rfl
  rw [hlist, pysum_ok]

theorem foldl_coe_mul :
    ∀ (rs : List (ℝ × ℕ)) (r : ℝ),
      (rs.map (fun p => ((p.2 : ℝ) : EReal) * ((p.1 : ℝ) : EReal))).foldl
          (· + ·) ((r : ℝ) : EReal)
        = ((((rs.map (fun p => (p.2 : ℝ) * p.1)).foldl (· + ·) r : ℝ)) : EReal) := by
  intro rs
  induction rs with
  | nil => intro r; rfl
  | cons q qt ih =>
    intro r
    simp only [List.map_cons, List.foldl_cons]
    rw [← EReal.coe_mul, ← EReal.coe_add, ih]

theorem comp_eps_eval (l : List Mechanism) (cl : List ℕ) (es : List ℝ)
    (hmap : l.map Mechanism.eps_pureDP = es.map Real.toEReal) :
    ((l.zip cl).map
        (fun mc => ((mc.2 : ℝ) : EReal) * mc.1.eps_pureDP)).foldl (· + ·) 0
      = ((((es.zip cl).map (fun p => (p.2 : ℝ) * p.1)).foldl
          (· + ·) (0 : ℝ) : ℝ) : EReal) := by
  have step := zip_map_eq Mechanism.eps_pureDP Real.toEReal
    (fun c v => ((c : ℝ) : EReal) * v) l es cl hmap
  simp only at step
  rw [step, show (0 : EReal) = ((0 : ℝ) : EReal) from rfl, foldl_coe_mul]

theorem comp_RenyiDP (opt : Optimizer) (fdpRoute : FdpRoute)
    (l : List Mechanism) (cl : List ℕ) (b1 b2 b3 : Bool) :
    (Composition_compose opt fdpRoute l cl b1 b2 b3).RenyiDP
      = Composition_newrdp l cl := by
  simp [Composition_compose, propagate_RDP]

theorem comp_eps_pureDP (opt : Optimizer) (fdpRoute : FdpRoute)
    (l : List Mechanism) (cl : List ℕ) (b1 b2 b3 : Bool) :
    (Composition_compose opt fdpRoute l cl b1 b2 b3).eps_pureDP
      = ((l.zip cl).map
          (fun mc => ((mc.2 : ℝ) : EReal) * mc.1.eps_pureDP)).foldl (· + ·) 0 := by
  simp [Composition_compose]

theorem comp_approxDP (opt : Optimizer) (fdpRoute : FdpRoute)
    (l : List Mechanism) (cl : List ℕ) (b1 b2 : Bool) :
    (Composition_compose opt fdpRoute l cl b1 b2 false).approxDP
      = rdp_to_approxdp (Composition_newrdp l cl) ⊤ b2 opt := by
  simp [Composition_compose, propagate_RDP, Mechanism.mk0]

theorem puredp_mech_eps (e : ℝ) (name : String) :
    (PureDP_Mechanism e name).eps_pureDP = (e : EReal) := by
  simp [PureDP_Mechanism, propagate_pureDP]

theorem puredp_mech_rdp_top (e : ℝ) (h : 0 ≤ e) (name : String) :
    (PureDP_Mechanism e name).RenyiDP ⊤ = .ok (e : EReal) := by
  simp only [PureDP_Mechanism, propagate_pureDP]
  rw [puredp_to_rdp, if_neg (not_lt.2 h)]
  exact puredp_rdp_top e

/-- C2: the mechanism returned by `compose([A,B],[1,1])` satisfies
`RenyiDP(alpha) = A.RenyiDP(alpha) + B.RenyiDP(alpha)` whenever both
component curves return values; in general the composed RDP curve is the
coefficient-weighted sum of the component curves, and `compose([mech],[1])`
reproduces the mechanism's RDP curve pointwise. -/
theorem claim_C2 (opt : Optimizer) (fdpRoute : FdpRoute) :
    (∀ (A B : Mechanism) (alpha a b : EReal),
      A.RenyiDP alpha = .ok a → B.RenyiDP alpha = .ok b →
      (Composition_compose opt fdpRoute [A, B] [1, 1]
        true true false).RenyiDP alpha = .ok (a + b)) ∧
    (∀ (l : List Mechanism) (cl : List ℕ) (es : List EReal) (alpha : EReal),
      l.map (fun m => m.RenyiDP alpha) = es.map Except.ok →
      (Composition_compose opt fdpRoute l cl true true false).RenyiDP alpha
        = .ok (((es.zip cl).map
            (fun p => ((p.2 : ℝ) : EReal) * p.1)).foldl (· + ·) 0)) ∧
    (∀ (m : Mechanism) (alpha rho : EReal),
      m.RenyiDP alpha = .ok rho →
      (Composition_compose opt fdpRoute [m] [1]
        true true false).RenyiDP alpha = .ok rho) := by
  have part2 : ∀ (l : List Mechanism) (cl : List ℕ) (es : List EReal)
      (alpha : EReal),
      l.map (fun m => m.RenyiDP alpha) = es.map Except.ok →
      (Composition_compose opt fdpRoute l cl true true false).RenyiDP alpha
        = .ok (((es.zip cl).map
            (fun p => ((p.2 : ℝ) : EReal) * p.1)).foldl (· + ·) 0) := by
    intro l cl es alpha hmap
    rw [comp_RenyiDP]
    exact comp_newrdp_eval l cl es alpha hmap
  refine ⟨?_, part2, ?_⟩
  · intro A B alpha a b hA hB
    have := part2 [A, B] [1, 1] [a, b] alpha (by rw [List.map, List.map, hA, hB]; rfl)
    rw [this]
    simp [zero_add, one_mul]
  · intro m alpha rho hm
    have := part2 [m] [1] [rho] alpha (by rw [List.map, hm]; rfl)
    rw [this]
    simp [zero_add, one_mul]

/-- Witness for C2: a singleton composition of a mechanism with constant
RDP curve `1`, evaluated at order `2`. -/
theorem claim_C2_witness :
    (Composition_compose opt_success fdpRoute0 [mech_r1] [1]
      true true false).RenyiDP 2 = .ok 1 :=
  (claim_C2 opt_success fdpRoute0).2.2 mech_r1 2 1 rfl

/-- C1: `Composition.compose` gives the composed mechanism the aggregate
pure-DP epsilon `sum(c_i * eps_i)` exactly; with a single pure-DP
mechanism of epsilon `e` composed with coefficient `K` this is exactly
`K * e`; and in the concrete 10-fold composition of a pure-DP mechanism
with epsilon `1.0`, the aggregate pure-DP epsilon is exactly `10.0` and
`approxDP 0` returns `10.0`. -/
theorem claim_C1 (opt : Optimizer) (fdpRoute : FdpRoute) :
    (∀ (l : List Mechanism) (cl : List ℕ) (es : List ℝ),
      l.map Mechanism.eps_pureDP = es.map Real.toEReal →
      (Composition_compose opt fdpRoute l cl true true false).eps_pureDP
        = ((((es.zip cl).map (fun p => (p.2 : ℝ) * p.1)).foldl
            (· + ·) (0 : ℝ) : ℝ) : EReal)) ∧
    (∀ (K : ℕ) (e : ℝ) (name : String),
      (Composition_compose opt fdpRoute [PureDP_Mechanism e name] [K]
        true true false).eps_pureDP = (((K : ℝ) * e : ℝ) : EReal)) ∧
    ((Composition_compose opt fdpRoute [PureDP_Mechanism 1 "PureDP"] [10]
        true true false).eps_pureDP = ((10 : ℝ) : EReal) ∧
     (Composition_compose opt fdpRoute [PureDP_Mechanism 1 "PureDP"] [10]
        true true false).approxDP 0 = .ok ((10 : ℝ) : EReal)) := by
  have part1 : ∀ (l : List Mechanism) (cl : List ℕ) (es : List ℝ),
      l.map Mechanism.eps_pureDP = es.map Real.toEReal →
      (Composition_compose opt fdpRoute l cl true true false).eps_pureDP
        = ((((es.zip cl).map (fun p => (p.2 : ℝ) * p.1)).foldl
            (· + ·) (0 : ℝ) : ℝ) : EReal) := by
    intro l cl es hmap
    rw [comp_eps_pureDP]
    exact comp_eps_eval l cl es hmap
  have part2 : ∀ (K : ℕ) (e : ℝ) (name : String),
      (Composition_compose opt fdpRoute [PureDP_Mechanism e name] [K]
        true true false).eps_pureDP = (((K : ℝ) * e : ℝ) : EReal) := by
    intro K e name
    have := part1 [PureDP_Mechanism e name] [K] [e]
      (by rw [List.map, puredp_mech_eps]; rfl)
    rw [this]
    norm_num
  refine ⟨part1, part2, ?_, ?_⟩
  · have := part2 10 1 "PureDP"
    rw [this]
    norm_num
  · rw [comp_approxDP, rdp_to_approxdp]
    rw [if_pos rfl]
    have := comp_newrdp_eval [PureDP_Mechanism 1 "PureDP"] [10]
      [((1 : ℝ) : EReal)] ⊤
      (by rw [List.map, puredp_mech_rdp_top 1 (by norm_num) "PureDP"]; rfl)
    rw [this]
    congr 1
    simp only [List.zip_cons_cons, List.zip_nil_right, List.map_cons,
      List.map_nil, List.foldl_cons, List.foldl_nil, zero_add]
    rw [← EReal.coe_mul]
    norm_num

/-- Witness for C1: the general sum formula instantiated with one pure-DP
mechanism of epsilon 3 composed with coefficient 2. -/
theorem claim_C1_witness :
    (Composition_compose opt_success fdpRoute0 [PureDP_Mechanism 3 "A"] [2]
      true true false).eps_pureDP
      = (((([(3 : ℝ)].zip [2]).map (fun p => (p.2 : ℝ) * p.1)).foldl
          (· + ·) (0 : ℝ) : ℝ) : EReal) :=
  (claim_C1 opt_success fdpRoute0).1 [PureDP_Mechanism 3 "A"] [2] [3]
    (by rw [List.map, puredp_mech_eps]; rfl)

theorem exmap_isOk (e : Except PyErr EReal) (f : EReal → EReal) :
    (e.map f).isOk = e.isOk := by
  cases e <;> rfl

/-- C6 counterexample: at the out-of-domain input delta = 2 the evaluator
returned by `rdp_to_approxdp` does not raise: it proceeds with the
optimization and returns a value (`isOk`), so the claimed fail-fast
precondition check does not exist on this path. -/
theorem claim_C6_counterexample :
    (rdp_to_approxdp rdp_zero ⊤ true opt_success 2).isOk = true := by
  rw [rdp_to_approxdp]
  rw [if_neg (by norm_num : (2 : ℝ) ≠ 0)]
  show (rdp_approxdp_obj rdp_zero true 2 2).isOk = true
  rw [rdp_approxdp_obj]
  rw [if_neg (by norm_num : ¬ (2 : ℝ) ≤ 1)]
  rfl

/-- C6 amended: an fpr outside [0,1] passed to the fDP evaluator of
`single_rdp_to_fdp` does fail fast via its assert; but a delta outside
[0,1] passed to the evaluator returned by `rdp_to_approxdp` is neither
rejected nor clamped: the code only prints a message and proceeds with
the order optimization, returning a value whenever the underlying RDP
curve does. -/
theorem claim_C6_amended :
    (∀ (alpha rho : ℝ) (opt : Optimizer) (x : ℝ), x < 0 ∨ 1 < x →
      single_fdp alpha rho opt x = .error .assertionError) ∧
    (∀ (rdp : EReal → Except PyErr EReal) (alpha_max : EReal) (bbghs : Bool)
      (opt : Optimizer) (delta : ℝ), delta < 0 ∨ 1 < delta →
      (∀ a : ℝ, (rdp a).isOk = true) →
      (rdp_to_approxdp rdp alpha_max bbghs opt delta).isOk = true) := by
  constructor
  · intro alpha rho opt x hx
    rw [single_fdp, if_pos]
    intro ⟨h0, h1⟩
    rcases hx with h | h
    · exact absurd h0 (not_le.2 h)
    · exact absurd h1 (not_le.2 h)
  · intro rdp alpha_max bbghs opt delta hδ hok
    have hne : delta ≠ 0 := by
      rcases hδ with h | h
      · exact ne_of_lt h
      · exact ne_of_gt (lt_trans one_pos h)
    rw [rdp_to_approxdp]
    rw [if_neg hne]
    by_cases hs : (opt (rdp_approxdp_obj rdp bbghs delta) (1, alpha_max)).success
    · rw [if_pos hs, rdp_approxdp_obj]
      by_cases hle : (opt (rdp_approxdp_obj rdp bbghs delta) (1, alpha_max)).x ≤ 1
      · rw [if_pos hle]
        rfl
      · rw [if_neg hle, exmap_isOk]
        exact hok _
    · rw [if_neg hs]
      rfl

/-- Witness for the amended C6 at fpr = 2 (assert fires) and delta = 3/2
(the conversion proceeds and returns a value). -/
theorem claim_C6_witness :
    single_fdp 1 1 opt_success 2 = .error .assertionError ∧
    (rdp_to_approxdp rdp_zero ⊤ true opt_fail (3 / 2)).isOk = true :=
  ⟨claim_C6_amended.1 1 1 opt_success 2 (Or.inr (by norm_num)),
   claim_C6_amended.2 rdp_zero ⊤ true opt_fail (3 / 2)
     (Or.inr (by norm_num)) (fun _ => rfl)⟩

/-- C7: when the sampling/neighbouring-relation asserts pass, the amplified
mechanism's approx-DP curve is the constant `0` for `prob = 0`, and for
`prob > 0` it is exactly the closed form
`log (1 + prob * (exp (eps (delta/prob)) - 1))` built from the base
mechanism's approx-DP curve at `delta/prob` (the direct assignment is not
overwritten by the subsequent RDP propagation). -/
theorem claim_C7 (PoissonSampling : Bool) (acctRdp : AcctRdp)
    (fdpRoute : FdpRoute) (opt : Optimizer) (mechanism : Mechanism)
    (prob : ℝ) (probStr : String) (improved : Bool)
    (h1 : ¬ (PoissonSampling = true ∧ mechanism.replace_one = true))
    (h2 : ¬ (PoissonSampling = false ∧ mechanism.replace_one = false)) :
    (prob = 0 → ∀ delta : ℝ,
      (AmplificationBySampling_amplify PoissonSampling acctRdp fdpRoute opt
        mechanism prob probStr improved).map (fun p => p.1.approxDP delta)
        = .ok (.ok 0)) ∧
    (0 < prob → ∀ delta : ℝ,
      (AmplificationBySampling_amplify PoissonSampling acctRdp fdpRoute opt
        mechanism prob probStr improved).map (fun p => p.1.approxDP delta)
        = .ok ((mechanism.approxDP (delta / prob)).map
            (fun e => pylog (1 + (prob : EReal) * (pyexp e - 1))))) := by
  constructor
  · intro hp delta
    rw [AmplificationBySampling_amplify, if_neg h1, if_neg h2]
    simp only [Except.map, propagate_RDP, if_pos hp]
    simp
  · intro hp delta
    rw [AmplificationBySampling_amplify, if_neg h1, if_neg h2]
    simp only [Except.map, propagate_RDP, if_neg (ne_of_gt hp)]
    simp

/-- Witness for C7: Poisson amplification of the add/remove base mechanism,
at `prob = 0` and at `prob = 1/2`. -/
theorem claim_C7_witness :
    ((AmplificationBySampling_amplify true acct0 fdpRoute0 opt_success
        mech_g 0 "0.0" false).map (fun p => p.1.approxDP (1 / 2))
      = .ok (.ok 0)) ∧
    ((AmplificationBySampling_amplify true acct0 fdpRoute0 opt_success
        mech_g (1 / 2) "0.5" false).map (fun p => p.1.approxDP (1 / 2))
      = .ok ((mech_g.approxDP ((1 / 2) / (1 / 2))).map
          (fun e => pylog (1 + ((1 / 2 : ℝ) : EReal) * (pyexp e - 1))))) :=
  ⟨(claim_C7 true acct0 fdpRoute0 opt_success mech_g 0 "0.0" false
      (by simp [mech_g, Mechanism.mk0]) (by simp)).1 rfl (1 / 2),
   (claim_C7 true acct0 fdpRoute0 opt_success mech_g (1 / 2) "0.5" false
      (by simp [mech_g, Mechanism.mk0]) (by simp)).2 (by norm_num) (1 / 2)⟩

/-- C5: evaluating `AmplificationBySampling.amplify` at a concrete input
shows that the input mechanism's `params` dict is mutated through the
alias `newmech.params = mechanism.params; newmech.params.update(...)`:
after the call the input mechanism carries the extra key
`PoissonSample -> 0.1`, contradicting the no-mutation claim. -/
theorem claim_C5_eval :
    ((AmplificationBySampling_amplify true acct0 fdpRoute0 opt_success
        mech_g (1 / 10) "0.1" false).map (fun p => p.2.params)
      = .ok [("sigma", (5 : ℝ)), ("PoissonSample", 1 / 10)]) ∧
    mech_g.params = [("sigma", (5 : ℝ))] ∧
    [("sigma", (5 : ℝ)), ("PoissonSample", (1 / 10 : ℝ))]
      ≠ [("sigma", (5 : ℝ))] := by
  refine ⟨?_, rfl, by simp⟩
  rw [AmplificationBySampling_amplify, if_neg (by simp [mech_g, Mechanism.mk0]),
    if_neg (by simp)]
  rfl

theorem afaFoldl (l : List Mechanism) (st : Bool × Bool × Bool) :
    l.foldl afaFlagStep st
      = (st.1 || l.any (fun m => !m.exactPhi && m.upperPhi),
         st.2.1 || l.any (fun m => !m.exactPhi && !m.upperPhi),
         st.2.2 && l.all (fun m => m.exactPhi)) := by
  induction l generalizing st with
  | nil => simp
  | cons m t ih =>
    simp only [List.foldl_cons, List.any_cons, List.all_cons, afaFlagStep]
    cases hE : m.exactPhi <;> cases hU : m.upperPhi <;>
      simp [hE, hU, ih, Bool.or_assoc, Bool.and_assoc]

theorem afaFlags_spec (l : List Mechanism) :
    afaFlags l
      = (l.any (fun m => !m.exactPhi && m.upperPhi),
         l.any (fun m => !m.exactPhi && !m.upperPhi),
         l.all (fun m => m.exactPhi)) := by
  rw [afaFlags, afaFoldl]
  simp

/-- C8: `ComposeAFA.compose` fails its precondition assert exactly when the
mechanism list contains both an inexact upper-bound-only mechanism and an
inexact lower-bound-only mechanism; lists whose inexact members share one
bound direction (exact-phi mechanisms allowed freely) are accepted. -/
theorem claim_C8 (cdfapprox : (ℝ → ℂ) → ℝ → ℝ) (opt : Optimizer)
    (l : List Mechanism) (cl : List ℕ) :
    (ComposeAFA_compose cdfapprox opt l cl).isOk = false ↔
      ((∃ m ∈ l, m.exactPhi = false ∧ m.upperPhi = true) ∧
       (∃ m ∈ l, m.exactPhi = false ∧ m.upperPhi = false)) := by
  rw [ComposeAFA_compose, afaFlags_spec]
  by_cases h : (l.any fun m => !m.exactPhi && !m.upperPhi) = true ∧
      (l.any fun m => !m.exactPhi && m.upperPhi) = true
  · rw [if_pos h]
    simp only [Except.isOk]
    constructor
    · intro _
      refine ⟨?_, ?_⟩
      · rcases List.any_eq_true.1 h.2 with ⟨m, hm, hp⟩
        exact ⟨m, hm, by
          simpa [Bool.and_eq_true, Bool.not_eq_true'] using hp⟩
      · rcases List.any_eq_true.1 h.1 with ⟨m, hm, hp⟩
        exact ⟨m, hm, by
          simpa [Bool.and_eq_true, Bool.not_eq_true'] using hp⟩
    · intro _
      rfl
  · rw [if_neg h]
    simp only [Except.isOk]
    constructor
    · intro hfalse
      exact Bool.noConfusion hfalse
    · intro ⟨⟨mu, hmu, hu⟩, ⟨ml, hml, hl⟩⟩
      exact absurd ⟨List.any_eq_true.2 ⟨ml, hml, by simp [hl.1, hl.2]⟩,
        List.any_eq_true.2 ⟨mu, hmu, by simp [hu.1, hu.2]⟩⟩ h

/-- Witness for C8: composing an upper-bound-only mechanism with a
lower-bound-only mechanism is rejected. -/
theorem claim_C8_witness :
    (ComposeAFA_compose cdfapprox0 opt_success [mech_up, mech_low]
      [1, 1]).isOk = false :=
  (claim_C8 cdfapprox0 opt_success [mech_up, mech_low] [1, 1]).mpr
    ⟨⟨mech_up, by simp, rfl, rfl⟩, ⟨mech_low, by simp, rfl, rfl⟩⟩

/-- C10: in the upper-bound branch of `ComposeAFA.compose` (some composed
mechanism is inexact and every inexact one carries an upper-bound
phi-function), both stored CDFs are built from the composed p-side
phi-function `phi_p_upper` (src line 149 uses `phi_p_upper` for `cdf_q`),
so the returned mechanism's q-side CDF equals its p-side CDF and the
composed `phi_q_upper` is never used for the CDF — with no hypothesis
relating the composed `phi_q` to the composed `phi_p`. -/
theorem claim_C10 (cdfapprox : (ℝ → ℂ) → ℝ → ℝ) (opt : Optimizer)
    (l : List Mechanism) (cl : List ℕ)
    (h1 : ∃ m ∈ l, m.exactPhi = false)
    (h2 : ∀ m ∈ l, m.exactPhi = false → m.upperPhi = true) :
    ((ComposeAFA_compose cdfapprox opt l cl).map (fun nm => nm.cdf.2)
      = (ComposeAFA_compose cdfapprox opt l cl).map (fun nm => nm.cdf.1)) ∧
    ((ComposeAFA_compose cdfapprox opt l cl).map (fun nm => nm.cdf.1)
      = .ok (fun x => cdfapprox (AFA_phi_p_upper l cl) x)) := by
  have hall : (l.all fun m => m.exactPhi) = false := by
    rcases h1 with ⟨m, hm, hex⟩
    rcases hb : l.all fun m => m.exactPhi with _ | _
    · rfl
    · exact absurd (List.all_eq_true.1 hb m hm) (by simp [hex])
  have hlow : (l.any fun m => !m.exactPhi && !m.upperPhi) = false := by
    rcases hb : l.any fun m => !m.exactPhi && !m.upperPhi with _ | _
    · rfl
    · rcases List.any_eq_true.1 hb with ⟨m, hm, hp⟩
      simp only [Bool.and_eq_true, Bool.not_eq_true'] at hp
      exact absurd (h2 m hm hp.1) (by simp [hp.2])
  rw [ComposeAFA_compose, afaFlags_spec]
  rw [if_neg (by simp [hlow])]
  simp only [hall, hlow, Bool.false_eq_true, if_false, propagate_cdf_not_sym,
    Except.map]
  exact ⟨trivial, trivial⟩

/-- Witness for C10: a singleton composition of an upper-bound-only
mechanism; its two CDFs agree as functions. -/
theorem claim_C10_witness :
    ((ComposeAFA_compose cdfapprox0 opt_success [mech_up] [1]).map
        (fun nm => nm.cdf.2)
      = (ComposeAFA_compose cdfapprox0 opt_success [mech_up] [1]).map
        (fun nm => nm.cdf.1)) ∧
    ((ComposeAFA_compose cdfapprox0 opt_success [mech_up] [1]).map
        (fun nm => nm.cdf.1)
      = .ok (fun x => cdfapprox0 (AFA_phi_p_upper [mech_up] [1]) x)) :=
  claim_C10 cdfapprox0 opt_success [mech_up] [1]
    ⟨mech_up, by simp, rfl⟩
    (fun m hm _ => by
      rcases List.mem_singleton.1 hm with rfl
      rfl)
